import Mathlib

/-!
Verification development for the payment-transaction data generator
(`data_generator.py`).  The generator is a single linear pipeline driven by
one seeded pseudorandom generator.  We embed it shallowly:

* every float is an exact rational (`ℚ`);
* the pseudorandom generator is an abstract draw stream `s : ℕ → ℚ`,
  consumed at explicit positions in exactly the order the script consumes
  `rng` (dimension sampling, amounts, timestamps, noise, outcomes,
  retryable-class, code assignment, recovery, merchant assignment);
* distribution transforms applied to a single draw (`rng.lognormal`,
  `rng.normal`, `rng.power`, `np.exp`) are abstract functions collected in
  an `Env`; every theorem is universally quantified over the `Env`;
* the one place where IEEE float semantics (NaN) matters — the batch
  min-max normalisation dividing by `max - min` — is additionally modelled
  with `Option ℚ` (`none` = NaN) to settle the degenerate-batch behaviour.
-/

namespace PaymentGen

/-- Merchant-category dimension entry (source table `MERCHANT_CATEGORIES`). -/
structure CatInfo where
  name : String
  weight : ℚ
  avg_amount : ℚ
  fail_base : ℚ
deriving DecidableEq, Repr

/-- Source table `MERCHANT_CATEGORIES` (lines 26-35). -/
def MERCHANT_CATEGORIES : List CatInfo :=
  [⟨"E-commerce", 0.28, 85, 0.09⟩,
   ⟨"SaaS/Subscription", 0.18, 55, 0.06⟩,
   ⟨"Travel", 0.12, 420, 0.13⟩,
   ⟨"Retail", 0.14, 65, 0.07⟩,
   ⟨"Marketplaces", 0.10, 140, 0.11⟩,
   ⟨"Gaming", 0.08, 25, 0.10⟩,
   ⟨"Healthcare", 0.06, 310, 0.05⟩,
   ⟨"Food & Delivery", 0.04, 38, 0.08⟩]

/-- Geography dimension entry (source table `GEOGRAPHIES`). -/
structure GeoInfo where
  name : String
  weight : ℚ
  fail_mult : ℚ
  currency : String
deriving DecidableEq, Repr

/-- Source table `GEOGRAPHIES` (lines 37-46). -/
def GEOGRAPHIES : List GeoInfo :=
  [⟨"US", 0.42, 1.00, "USD"⟩,
   ⟨"EU", 0.20, 0.90, "EUR"⟩,
   ⟨"UK", 0.10, 0.92, "GBP"⟩,
   ⟨"IN", 0.08, 1.35, "INR"⟩,
   ⟨"BR", 0.06, 1.45, "BRL"⟩,
   ⟨"SG", 0.05, 0.85, "SGD"⟩,
   ⟨"CA", 0.05, 0.95, "CAD"⟩,
   ⟨"AU", 0.04, 0.88, "AUD"⟩]

/-- Payment-method dimension entry (source table `PAYMENT_METHODS`). -/
structure PmInfo where
  name : String
  weight : ℚ
  fail_mult : ℚ
deriving DecidableEq, Repr

/-- Source table `PAYMENT_METHODS` (lines 48-54). -/
def PAYMENT_METHODS : List PmInfo :=
  [⟨"Credit Card", 0.38, 0.90⟩,
   ⟨"Debit Card", 0.25, 1.10⟩,
   ⟨"Digital Wallet", 0.18, 0.75⟩,
   ⟨"Bank Transfer", 0.10, 1.20⟩,
   ⟨"BNPL", 0.09, 1.40⟩]

/-- Failure-code table entry: (label, retryability flag, human text). -/
structure CodeInfo where
  name : String
  retryable : Bool
  descr : String
deriving DecidableEq, Repr

/-- Source table `FAILURE_CODES` (lines 57-70). -/
def FAILURE_CODES : List CodeInfo :=
  [⟨"insufficient_funds", true, "Insufficient funds — retry after top-up"⟩,
   ⟨"card_expired", false, "Card expired — requires new card"⟩,
   ⟨"do_not_honor", true, "Generic bank decline — retryable"⟩,
   ⟨"incorrect_cvc", false, "CVC mismatch — requires customer action"⟩,
   ⟨"lost_card", false, "Card reported lost — permanent block"⟩,
   ⟨"stolen_card", false, "Card reported stolen — permanent block"⟩,
   ⟨"processing_error", true, "Processor error — retry immediately"⟩,
   ⟨"network_timeout", true, "Network timeout — retry"⟩,
   ⟨"velocity_exceeded", true, "Velocity limit hit — retry after cooldown"⟩,
   ⟨"fraud_suspected", false, "Fraud flag — requires review"⟩,
   ⟨"currency_not_supported", false, "Currency mismatch — not retryable"⟩,
   ⟨"amount_too_large", false, "Exceeds card limit — not retryable"⟩]

/-- Source line 72: the retryable code pool. -/
def RETRY_CODES : List String :=
  (FAILURE_CODES.filter (fun c => c.retryable)).map (fun c => c.name)

/-- Source line 73: the non-retryable code pool. -/
def NON_RETRY_CODES : List String :=
  (FAILURE_CODES.filter (fun c => !c.retryable)).map (fun c => c.name)

/-- Source table `RETRY_RECOVERY` (lines 76-82): per-code retry success rate. -/
def RETRY_RECOVERY : List (String × ℚ) :=
  [("insufficient_funds", 0.45),
   ("do_not_honor", 0.60),
   ("processing_error", 0.82),
   ("network_timeout", 0.88),
   ("velocity_exceeded", 0.55)]

/-- Lookup in `FAILURE_CODES` by label, as the Python dict access does. -/
def lookupCode (c : String) : Option CodeInfo :=
  FAILURE_CODES.find? (fun e => e.name = c)

/-- Source line 184: `RETRY_RECOVERY.get(code, 0.50)`. -/
def recoveryRate (c : String) : ℚ :=
  ((RETRY_RECOVERY.find? (fun e => e.1 = c)).map (fun e => e.2)).getD 0.50

/-- Name-keyed lookup of a category's `avg_amount` (source line 101). -/
def avgAmountOf (c : String) : ℚ :=
  ((MERCHANT_CATEGORIES.find? (fun e => e.name = c)).map (fun e => e.avg_amount)).getD 0

/-- Name-keyed lookup of a category's `fail_base` (source line 127). -/
def failBaseOf (c : String) : ℚ :=
  ((MERCHANT_CATEGORIES.find? (fun e => e.name = c)).map (fun e => e.fail_base)).getD 0

/-- Name-keyed lookup of a geography's `fail_mult` (source line 128). -/
def geoMultOf (g : String) : ℚ :=
  ((GEOGRAPHIES.find? (fun e => e.name = g)).map (fun e => e.fail_mult)).getD 0

/-- Name-keyed lookup of a geography's `currency` (source line 204). -/
def currencyOf (g : String) : String :=
  ((GEOGRAPHIES.find? (fun e => e.name = g)).map (fun e => e.currency)).getD ""

/-- Name-keyed lookup of a payment method's `fail_mult` (source line 129). -/
def pmMultOf (p : String) : ℚ :=
  ((PAYMENT_METHODS.find? (fun e => e.name = p)).map (fun e => e.fail_mult)).getD 0

/-- Model of `np.clip(x, lo, hi)`: lower bound applied first, then upper. -/
def clip (x lo hi : ℚ) : ℚ := min hi (max lo x)

/-- Round-half-to-even to an integer, as `np.round` does on exact values. -/
def roundHE (x : ℚ) : ℤ :=
  let f := ⌊x⌋
  let r := x - f
  if r < 1/2 then f
  else if 1/2 < r then f + 1
  else if f % 2 = 0 then f else f + 1

/-- Model of `np.round(x, 2)`. -/
def rnd2 (x : ℚ) : ℚ := (roundHE (x * 100) : ℚ) / 100

/-- Model of `np.round(x, 4)`. -/
def rnd4 (x : ℚ) : ℚ := (roundHE (x * 10000) : ℚ) / 10000

/-- Inverse-CDF walk used to model `rng.choice(keys, p=weights)`: index of
the first weight bucket whose cumulative sum exceeds the unit draw, clamped
to the last index. -/
def chooseIdxAux : List ℚ → ℚ → ℕ
  | [], _ => 0
  | [_], _ => 0
  | w :: ws, u => if u < w then 0 else chooseIdxAux ws (u - w) + 1

/-- Model of a uniform integer draw `rng.integers(0, k)` (also the internal
draw of `rng.choice` without `p`): the high end `k` is EXCLUSIVE, per numpy
semantics, so the result always lies in `[0, k)`. -/
def uniformIdx (k : ℕ) (u : ℚ) : ℕ := min (k - 1) (max 0 ⌊u * (k : ℚ)⌋).toNat

/-- Minimum of a batch column, as `ndarray.min()` (0 only on the empty batch). -/
def listMin : List ℚ → ℚ
  | [] => 0
  | [x] => x
  | x :: y :: t => min x (listMin (y :: t))

/-- Maximum of a batch column, as `ndarray.max()` (0 only on the empty batch). -/
def listMax : List ℚ → ℚ
  | [] => 0
  | [x] => x
  | x :: y :: t => max x (listMax (y :: t))

/-- Zero-padded decimal rendering, as Python `f-string` `{i:07d}` formatting. -/
def zeroPad (w : ℕ) (i : ℕ) : String :=
  let s := toString i
  String.mk (List.replicate (w - s.length) '0') ++ s

/-- Days since 1970-01-01 of a civil date (Gregorian, proleptic). -/
def daysFromCivil (y m d : ℤ) : ℤ :=
  let y2 := if m ≤ 2 then y - 1 else y
  let era := (if 0 ≤ y2 then y2 else y2 - 399) / 400
  let yoe := y2 - era * 400
  let mp := if 2 < m then m - 3 else m + 9
  let doy := (153 * mp + 2) / 5 + d - 1
  let doe := yoe * 365 + yoe / 4 - yoe / 100 + doy
  era * 146097 + doe - 719468

/-- Civil date (year, month, day) of a days-since-1970-01-01 count. -/
def civilFromDays (z0 : ℤ) : ℤ × ℕ × ℕ :=
  let z := z0 + 719468
  let era := (if 0 ≤ z then z else z - 146096) / 146097
  let doe := z - era * 146097
  let yoe := (doe - doe / 1460 + doe / 36524 - doe / 146096) / 365
  let y := yoe + era * 400
  let doy := doe - (365 * yoe + yoe / 4 - yoe / 100)
  let mp := (5 * doy + 2) / 153
  let d := doy - (153 * mp + 2) / 5 + 1
  let m := if mp < 10 then mp + 3 else mp - 9
  (if m ≤ 2 then y + 1 else y, m.toNat, d.toNat)

/-- Day number of the window start `pd.Timestamp("2023-07-01")` (line 109). -/
def startDay : ℤ := daysFromCivil 2023 7 1

/-- Source line 111: `int((end_ts - start_ts).total_seconds())` for
`end_ts = pd.Timestamp("2024-12-31")`; both stamps are midnight, so this is
the whole-day difference times 86400. -/
def totalSeconds : ℕ := (86400 * (daysFromCivil 2024 12 31 - startDay)).toNat

/-- Abstract single-draw distribution transforms.  Each field turns one unit
draw from the generator stream into the value the corresponding numpy
sampler would return; the pipeline below is parametric in them. -/
structure Env where
  exp : ℚ → ℚ
  lognormal : ℚ → ℚ → ℚ
  normal04 : ℚ → ℚ
  power03 : ℚ → ℚ

/-- Source line 88: merchant-category index of row `i` (stream block `[0,n)`). -/
def mcIdx (s : ℕ → ℚ) (i : ℕ) : ℕ :=
  chooseIdxAux (MERCHANT_CATEGORIES.map (fun c => c.weight)) (s i)

/-- Merchant-category label of row `i`. -/
def mcName (s : ℕ → ℚ) (i : ℕ) : String :=
  (MERCHANT_CATEGORIES.getD (mcIdx s i) ⟨"", 0, 0, 0⟩).name

/-- Source line 92: geography index of row `i` (stream block `[n,2n)`). -/
def geoIdx (s : ℕ → ℚ) (n i : ℕ) : ℕ :=
  chooseIdxAux (GEOGRAPHIES.map (fun g => g.weight)) (s (n + i))

/-- Geography label of row `i`. -/
def geoName (s : ℕ → ℚ) (n i : ℕ) : String :=
  (GEOGRAPHIES.getD (geoIdx s n i) ⟨"", 0, 0, ""⟩).name

/-- Source line 96: payment-method index of row `i` (stream block `[2n,3n)`). -/
def pmIdx (s : ℕ → ℚ) (n i : ℕ) : ℕ :=
  chooseIdxAux (PAYMENT_METHODS.map (fun p => p.weight)) (s (2*n + i))

/-- Payment-method label of row `i`. -/
def pmName (s : ℕ → ℚ) (n i : ℕ) : String :=
  (PAYMENT_METHODS.getD (pmIdx s n i) ⟨"", 0, 0⟩).name

/-- Source lines 99-106: `amount_usd` of row `i` — a log-normal draw anchored
to the category average (stream block `[3n,4n)`), floored at `1.0`, then
rounded to 2 decimal places. -/
def amount (env : Env) (s : ℕ → ℚ) (n i : ℕ) : ℚ :=
  rnd2 (max 1 (env.lognormal (avgAmountOf (mcName s i)) (s (3*n + i))))

/-- Source lines 113-114: second offset of row `i` from the window start,
drawn by `rng.integers(0, total_seconds)` (stream block `[4n,5n)`). -/
def offsetSec (s : ℕ → ℚ) (n i : ℕ) : ℕ :=
  uniformIdx totalSeconds (s (4*n + i))

/-- Source line 140: Gaussian noise of row `i` (stream block `[5n,6n)`). -/
def noise (env : Env) (s : ℕ → ℚ) (n i : ℕ) : ℚ :=
  env.normal04 (s (5*n + i))

/-- Source line 130: `amount_risk = clip((amounts - 50) / 1000, 0, 0.12)`. -/
def amountRisk (env : Env) (s : ℕ → ℚ) (n i : ℕ) : ℚ :=
  clip ((amount env s n i - 50) / 1000) 0 0.12

/-- Source line 133: `raw_risk = mc_base * geo_mult * pm_mult + amount_risk`. -/
def rawRisk (env : Env) (s : ℕ → ℚ) (n i : ℕ) : ℚ :=
  failBaseOf (mcName s i) * geoMultOf (geoName s n i) * pmMultOf (pmName s n i)
    + amountRisk env s n i

/-- The batch-wide raw-risk column. -/
def rawRiskList (env : Env) (s : ℕ → ℚ) (n : ℕ) : List ℚ :=
  (List.range n).map (rawRisk env s n)

/-- Source line 136: `risk_min = raw_risk.min()`. -/
def riskMin (env : Env) (s : ℕ → ℚ) (n : ℕ) : ℚ := listMin (rawRiskList env s n)

/-- Source line 136: `risk_max = raw_risk.max()`. -/
def riskMax (env : Env) (s : ℕ → ℚ) (n : ℕ) : ℚ := listMax (rawRiskList env s n)

/-- Source line 137: batch min-max normalisation of the raw risk, in exact
rational arithmetic (`ℚ` division returns `0` on the degenerate `max = min`
batch, where IEEE instead produces `0.0/0.0 = NaN`).  The IEEE-faithful
variant is `riskBaseF` below; every theorem about score values either
assumes the batch non-degenerate — where the two provably agree — or is
stated over the IEEE variant. -/
def riskBase (env : Env) (s : ℕ → ℚ) (n i : ℕ) : ℚ :=
  (rawRisk env s n i - riskMin env s n) / (riskMax env s n - riskMin env s n)

/-- Source line 141: `pre_auth_risk_score = clip(risk_score_base + noise, 0, 1)`
(the unrounded score used by the failure model). -/
def score (env : Env) (s : ℕ → ℚ) (n i : ℕ) : ℚ :=
  clip (riskBase env s n i + noise env s n i) 0 1

/-- Source line 145: `sigmoid(x) = 1 / (1 + exp(-x))`, over the abstract
exponential of the environment. -/
def sigmoidQ (e : ℚ → ℚ) (x : ℚ) : ℚ := 1 / (1 + e (-x))

/-- Source line 147: `THRESHOLD = 0.45`. -/
def THRESHOLD : ℚ := 0.45

/-- Source line 148: `SIGMA = 0.025`. -/
def SIGMA : ℚ := 0.025

/-- Source lines 149-150: the failure probability of row `i`. -/
def failProb (env : Env) (s : ℕ → ℚ) (n i : ℕ) : ℚ :=
  clip (sigmoidQ env.exp ((score env s n i - THRESHOLD) / SIGMA) * 0.40 + 0.03)
    0.02 0.90

/-- Source line 153: `is_failed = rng.random(size=N) < fail_probs`
(stream block `[6n,7n)`). -/
def isFailed (env : Env) (s : ℕ → ℚ) (n i : ℕ) : Bool :=
  decide (s (6*n + i) < failProb env s n i)

/-- Source line 159: `failed_idx = np.where(is_failed)[0]`. -/
def failedIdx (env : Env) (s : ℕ → ℚ) (n : ℕ) : List ℕ :=
  (List.range n).filter (fun i => isFailed env s n i)

/-- Source line 160: `n_failed = len(failed_idx)`. -/
def nFailed (env : Env) (s : ℕ → ℚ) (n : ℕ) : ℕ := (failedIdx env s n).length

/-- Source line 163: `retryable_mask = rng.random(size=n_failed) < 0.60`
(stream block starting at `7n`). -/
def retryMask (env : Env) (s : ℕ → ℚ) (n j : ℕ) : Bool :=
  decide (s (7*n + j) < 0.60)

/-- The retryable-class mask column over the failed rows. -/
def maskList (env : Env) (s : ℕ → ℚ) (n : ℕ) : List Bool :=
  (List.range (nFailed env s n)).map (retryMask env s n)

/-- Source line 165: `retry_assigns = rng.choice(RETRY_CODES, size=n_failed)`
(stream block starting at `7n + n_failed`). -/
def retryAssign (env : Env) (s : ℕ → ℚ) (n j : ℕ) : String :=
  RETRY_CODES.getD (uniformIdx RETRY_CODES.length (s (7*n + nFailed env s n + j))) ""

/-- Source line 166: `nonretry_assigns = rng.choice(NON_RETRY_CODES, size=n_failed)`
(stream block starting at `7n + 2*n_failed`). -/
def nonretryAssign (env : Env) (s : ℕ → ℚ) (n j : ℕ) : String :=
  NON_RETRY_CODES.getD
    (uniformIdx NON_RETRY_CODES.length (s (7*n + 2 * nFailed env s n + j))) ""

/-- Source lines 168-171: the code assigned to the `j`-th failed row. -/
def assignedCode (env : Env) (s : ℕ → ℚ) (n j : ℕ) : String :=
  if retryMask env s n j then retryAssign env s n j else nonretryAssign env s n j

/-- The `assigned_codes` column (length `n_failed`). -/
def assignedCodes (env : Env) (s : ℕ → ℚ) (n : ℕ) : List String :=
  (List.range (nFailed env s n)).map (assignedCode env s n)

/-- Source line 156: `np.where(is_failed, "pending_code", "success")`. -/
def codesInit (env : Env) (s : ℕ → ℚ) (n : ℕ) : List String :=
  (List.range n).map (fun i => if isFailed env s n i then "pending_code" else "success")

/-- Vectorised scatter-assignment `l[idxs] = vals`, as a left fold of `set`. -/
def scatter {α : Type} (l : List α) : List (ℕ × α) → List α
  | [] => l
  | (i, a) :: rest => scatter (l.set i a) rest

/-- Source line 172: `failure_codes[failed_idx] = assigned_codes`. -/
def failureCodes (env : Env) (s : ℕ → ℚ) (n : ℕ) : List String :=
  scatter (codesInit env s n) ((failedIdx env s n).zip (assignedCodes env s n))

/-- The `failure_code` value of row `i`. -/
def failureCode (env : Env) (s : ℕ → ℚ) (n i : ℕ) : String :=
  (failureCodes env s n).getD i ""

/-- Source lines 175-178: `is_retryable` re-derived from the assigned code by
lookup in `FAILURE_CODES` (the Python dict access would raise `KeyError` on a
label outside the table; that path is unreachable, see the range theorem). -/
def isRetryable (env : Env) (s : ℕ → ℚ) (n i : ℕ) : Bool :=
  if failureCode env s n i ≠ "success" then
    (((lookupCode (failureCode env s n i)).map (fun c => c.retryable)).getD false)
  else false

/-- Source line 182: `failed_idx[retryable_mask]` — the failed row indices
whose class draw came out retryable, in increasing order. -/
def retryFailedIdx (env : Env) (s : ℕ → ℚ) (n : ℕ) : List ℕ :=
  (((failedIdx env s n).zip (maskList env s n)).filter (fun p => p.2)).map (fun p => p.1)

/-- First stream position of the recovery-loop draws. -/
def recBase (env : Env) (s : ℕ → ℚ) (n : ℕ) : ℕ := 7*n + 3 * nFailed env s n

/-- Source lines 181-185: the recovery loop's updates — the `j`-th iteration
consumes one draw and compares it to the per-code recovery rate. -/
def recUpdates (env : Env) (s : ℕ → ℚ) (n : ℕ) : List (ℕ × Bool) :=
  ((retryFailedIdx env s n).zip (List.range (retryFailedIdx env s n).length)).map
    (fun p => (p.1, decide (s (recBase env s n + p.2) < recoveryRate (failureCode env s n p.1))))

/-- Source lines 181-185: `retry_recovered`, zeros scattered with the loop's
assignments. -/
def retryRecovered (env : Env) (s : ℕ → ℚ) (n : ℕ) : List Bool :=
  scatter (List.replicate n false) (recUpdates env s n)

/-- The `retry_recovered` value of row `i`. -/
def retryRecoveredAt (env : Env) (s : ℕ → ℚ) (n i : ℕ) : Bool :=
  (retryRecovered env s n).getD i false

/-- Source line 188: `is_recoverable = is_retryable & ~retry_recovered & is_failed`. -/
def isRecoverable (env : Env) (s : ℕ → ℚ) (n i : ℕ) : Bool :=
  isRetryable env s n i && !retryRecoveredAt env s n i && isFailed env s n i

/-- Source line 192: `n_merchants = 5000`. -/
def nMerchants : ℕ := 5000

/-- First stream position of the merchant-popularity draws. -/
def popBase (env : Env) (s : ℕ → ℚ) (n : ℕ) : ℕ :=
  recBase env s n + (retryFailedIdx env s n).length

/-- Source line 193: `merchant_pop = rng.power(0.3, size=n_merchants)`. -/
def popRaw (env : Env) (s : ℕ → ℚ) (n : ℕ) : List ℚ :=
  let b := popBase env s n
  (List.range nMerchants).map (fun j => env.power03 (s (b + j)))

/-- Source line 194: the popularity normaliser `merchant_pop.sum()`. -/
def popSum (env : Env) (s : ℕ → ℚ) (n : ℕ) : ℚ :=
  (popRaw env s n).foldr (fun a b => a + b) 0

/-- Source line 194: `merchant_pop / merchant_pop.sum()`. -/
def popNorm (env : Env) (s : ℕ → ℚ) (n : ℕ) : List ℚ :=
  let t := popSum env s n
  (popRaw env s n).map (fun w => w / t)

/-- Source line 195: the merchant index of row `i` (stream block after the
popularity draws). -/
def merchantIdx (env : Env) (s : ℕ → ℚ) (n i : ℕ) : ℕ :=
  chooseIdxAux (popNorm env s n) (s (popBase env s n + nMerchants + i))

/-- Source line 195: `MID_{i:05d}` labels. -/
def merchantId (env : Env) (s : ℕ → ℚ) (n i : ℕ) : String :=
  "MID_" ++ zeroPad 5 (merchantIdx env s n i)

/-- Total number of draws the pipeline consumes from the stream. -/
def totalDraws (env : Env) (s : ℕ → ℚ) (n : ℕ) : ℕ :=
  popBase env s n + nMerchants + n

/-- Hour of day of an instant `offset` seconds after the window start
(the start is midnight). -/
def hourOf (k : ℕ) : ℕ := (k % 86400) / 3600

/-- Day index (whole days after the window start) of an offset. -/
def dayIndex (k : ℕ) : ℕ := k / 86400

/-- Pandas `dayofweek` (Monday = 0) of the instant; 1970-01-01 was a Thursday. -/
def dowOf (k : ℕ) : ℕ := ((startDay + (dayIndex k : ℤ) + 3) % 7).toNat

/-- One row of the assembled table (source lines 198-218); the `timestamp`
column is represented by its second offset from the window start. -/
structure Row where
  transaction_id : String
  offsetSeconds : ℕ
  merchant_id : String
  merchant_category : String
  geography : String
  currency : String
  payment_method : String
  amount_usd : ℚ
  pre_auth_risk_score : ℚ
  status : String
  failure_code : String
  is_retryable : Bool
  retry_recovered : Bool
  is_recoverable : Bool
  hour_of_day : ℕ
  day_of_week : ℕ
  is_weekend : Bool
  month : ℕ
  year : ℤ
deriving DecidableEq, Repr

/-- Row `i` of the assembled dataframe (source lines 198-218). -/
def mkRow (env : Env) (s : ℕ → ℚ) (n i : ℕ) : Row :=
  let k := offsetSec s n i
  let d := dowOf k
  let cv := civilFromDays (startDay + (dayIndex k : ℤ))
  { transaction_id := "TXN_" ++ zeroPad 7 i
    offsetSeconds := k
    merchant_id := merchantId env s n i
    merchant_category := mcName s i
    geography := geoName s n i
    currency := currencyOf (geoName s n i)
    payment_method := pmName s n i
    amount_usd := amount env s n i
    pre_auth_risk_score := rnd4 (score env s n i)
    status := if isFailed env s n i then "failed" else "success"
    failure_code := failureCode env s n i
    is_retryable := isRetryable env s n i
    retry_recovered := retryRecoveredAt env s n i
    is_recoverable := isRecoverable env s n i
    hour_of_day := hourOf k
    day_of_week := d
    is_weekend := d = 5 ∨ d = 6
    month := cv.2.1
    year := cv.1 }

/-- The assembled table. -/
def rows (env : Env) (s : ℕ → ℚ) (n : ℕ) : List Row :=
  (List.range n).map (mkRow env s n)

/-- Integer rendering of the boolean columns (`.astype(int)`, lines 210-212). -/
def boolInt (b : Bool) : String := if b then "1" else "0"

/-- CSV rendering of one row, columns in the dataframe order. -/
def csvOfRow (r : Row) : String :=
  String.intercalate ","
    [r.transaction_id, toString r.offsetSeconds, r.merchant_id,
     r.merchant_category, r.geography, r.currency, r.payment_method,
     toString r.amount_usd, toString r.pre_auth_risk_score, r.status,
     r.failure_code, boolInt r.is_retryable, boolInt r.retry_recovered,
     boolInt r.is_recoverable, toString r.hour_of_day, toString r.day_of_week,
     boolInt r.is_weekend, toString r.month, toString r.year]

/-- CSV header (source line 222 writes the header row then the data rows). -/
def csvHeader : String :=
  "transaction_id,timestamp,merchant_id,merchant_category,geography,currency,payment_method,amount_usd,pre_auth_risk_score,status,failure_code,is_retryable,retry_recovered,is_recoverable,hour_of_day,day_of_week,is_weekend,month,year"

/-- The output file's content (source lines 221-222). -/
def csv (env : Env) (s : ℕ → ℚ) (n : ℕ) : String :=
  String.intercalate "\n" (csvHeader :: (rows env s n).map csvOfRow)

/-- IEEE float division as the normalisation step meets it: `0.0 / 0.0` is
NaN (numpy emits only a RuntimeWarning, it does not raise), modelled by
`none`. -/
def fdiv (a b : ℚ) : Option ℚ := if b = 0 then none else some (a / b)

/-- Model of `np.clip` on a possibly-NaN value: NaN propagates. -/
def fclipOpt (x : Option ℚ) (lo hi : ℚ) : Option ℚ := x.map (fun v => clip v lo hi)

/-- IEEE comparison `u < p` when `p` may be NaN: any comparison with NaN is
false, so a NaN failure probability yields `status = "success"`. -/
def fltOpt (u : ℚ) (p : Option ℚ) : Bool :=
  match p with
  | none => false
  | some v => decide (u < v)

/-- Source line 137 under IEEE semantics: the batch min-max normalisation,
with `none` for the NaN produced when the denominator `max - min` is zero. -/
def normalizeScores (rs : List ℚ) : List (Option ℚ) :=
  rs.map (fun r => fdiv (r - listMin rs) (listMax rs - listMin rs))

/-- Source line 137 under IEEE semantics, per row: the normalised score base
of row `i`, `none` (NaN) exactly when the batch is degenerate (`max = min`
forces `0.0 / 0.0`). -/
def riskBaseF (env : Env) (s : ℕ → ℚ) (n i : ℕ) : Option ℚ :=
  fdiv (rawRisk env s n i - riskMin env s n) (riskMax env s n - riskMin env s n)

/-- Source line 141 under IEEE semantics: noise addition and `np.clip` both
propagate NaN. -/
def scoreF (env : Env) (s : ℕ → ℚ) (n i : ℕ) : Option ℚ :=
  fclipOpt ((riskBaseF env s n i).map (fun v => v + noise env s n i)) 0 1

/-- Source line 207 under IEEE semantics: the written risk score
(`np.round(·, 4)` propagates NaN as well). -/
def writtenScoreF (env : Env) (s : ℕ → ℚ) (n i : ℕ) : Option ℚ :=
  (scoreF env s n i).map rnd4

/-- Modelled from the spec (§4.5): the failure-probability formula as the
spec words it, to be compared with the pipeline's `failProb`. -/
def specSigmoid (e : ℚ → ℚ) (x : ℚ) : ℚ := 1 / (1 + e (-x))

/-- Modelled from the spec (§4.5): `p = sigmoid((score - 0.45) / 0.025) * 0.40
+ 0.03` followed by `p = clip(p, 0.02, 0.90)`. -/
def specFailProb (e : ℚ → ℚ) (sc : ℚ) : ℚ :=
  min 0.90 (max 0.02 (specSigmoid e ((sc - 0.45) / 0.025) * 0.40 + 0.03))

/-- Concrete sample environment for instantiating the theorems. -/
def env0 : Env := ⟨fun _ => 1, fun _ u => u, fun u => u, fun _ => 1⟩

/-- Concrete sample draw stream (row 0 comes out failed with a retryable
code under `env0`). -/
def st1 : ℕ → ℚ := fun i => if i < 6 then 1/2 else 1/100

/-- A second stream agreeing with `st1` on all positions the pipeline can
consume for small `n`, and differing far beyond them. -/
def st2 : ℕ → ℚ := fun i => if i < 100000 then st1 i else 37

/-- A third stream whose first two rows draw different merchant categories,
giving a non-degenerate two-row batch (distinct raw risks). -/
def st3 : ℕ → ℚ := fun i => if i = 1 then 29/100 else 0

section Helpers

variable {α : Type}

theorem getD_map_range (f : ℕ → α) {i n : ℕ} (h : i < n) (d : α) :
    ((List.range n).map f).getD i d = f i := by
  rw [List.getD_eq_getElem?_getD, List.getElem?_map, List.getElem?_range h]
  rfl

theorem getD_of_lt (l : List α) {i : ℕ} (h : i < l.length) (d : α) :
    l.getD i d = l[i] := by
  rw [List.getD_eq_getElem?_getD, List.getElem?_eq_getElem h]
  rfl

theorem getD_mem_of_lt (l : List α) {i : ℕ} (h : i < l.length) (d : α) :
    l.getD i d ∈ l := by
  rw [getD_of_lt l h d]
  exact List.getElem_mem h

theorem getD_set_ne (l : List α) {j i : ℕ} (h : j ≠ i) (a d : α) :
    (l.set j a).getD i d = l.getD i d := by
  rw [List.getD_eq_getElem?_getD, List.getD_eq_getElem?_getD, List.getElem?_set,
    if_neg h]

theorem getD_set_eq (l : List α) {i : ℕ} (h : i < l.length) (a d : α) :
    (l.set i a).getD i d = a := by
  rw [List.getD_eq_getElem?_getD, List.getElem?_set, if_pos rfl, if_pos h]
  rfl

theorem scatter_length (l : List α) (upds : List (ℕ × α)) :
    (scatter l upds).length = l.length := by
  induction upds generalizing l with
  | nil => rfl
  | cons p rest ih =>
    cases p with
    | mk j a => rw [scatter, ih, List.length_set]

theorem scatter_getD_not_mem (upds : List (ℕ × α)) (l : List α) {i : ℕ}
    (h : i ∉ upds.map Prod.fst) (d : α) :
    (scatter l upds).getD i d = l.getD i d := by
  induction upds generalizing l with
  | nil => rfl
  | cons p rest ih =>
    cases p with
    | mk j a =>
      simp only [List.map_cons, List.mem_cons, not_or] at h
      rw [scatter, ih _ h.2, getD_set_ne _ (fun e => h.1 e.symm)]

theorem scatter_getD_mem (upds : List (ℕ × α)) (l : List α) {i : ℕ} {a : α}
    (hnd : (upds.map Prod.fst).Nodup) (hmem : (i, a) ∈ upds)
    (hlen : i < l.length) (d : α) :
    (scatter l upds).getD i d = a := by
  induction upds generalizing l with
  | nil => cases hmem
  | cons p rest ih =>
    cases p with
    | mk j b =>
      simp only [List.map_cons, List.nodup_cons] at hnd
      rcases List.mem_cons.mp hmem with he | hm
      · rw [Prod.mk.injEq] at he
        obtain ⟨rfl, rfl⟩ := he
        rw [scatter, scatter_getD_not_mem rest _ hnd.1 d, getD_set_eq l hlen a d]
      · rw [scatter]
        exact ih (l.set j b) hnd.2 hm (by rw [List.length_set]; exact hlen)

theorem chooseIdxAux_lt (ws : List ℚ) (u : ℚ) (h : ws ≠ []) :
    chooseIdxAux ws u < ws.length := by
  induction ws generalizing u with
  | nil => cases h rfl
  | cons w t ih =>
    cases t with
    | nil => simp [chooseIdxAux]
    | cons w2 t2 =>
      show (if u < w then 0 else chooseIdxAux (w2 :: t2) (u - w) + 1) < (w :: w2 :: t2).length
      split
      · simp
      · have h2 := ih (u - w) (by intro hh; exact List.noConfusion hh)
        simp only [List.length_cons] at h2 ⊢
        omega

theorem uniformIdx_lt {k : ℕ} (hk : 0 < k) (u : ℚ) : uniformIdx k u < k := by
  have : min (k - 1) (max 0 ⌊u * (k : ℚ)⌋).toNat ≤ k - 1 := Nat.min_le_left _ _
  calc uniformIdx k u ≤ k - 1 := this
  _ < k := by omega

theorem clip_le_hi (x lo hi : ℚ) : clip x lo hi ≤ hi := min_le_left _ _

theorem lo_le_clip (x : ℚ) {lo hi : ℚ} (h : lo ≤ hi) : lo ≤ clip x lo hi :=
  le_min h (le_max_left _ _)

theorem floor_le_roundHE (x : ℚ) : ⌊x⌋ ≤ roundHE x := by
  rw [roundHE]
  split
  · exact le_refl _
  · split
    · omega
    · split <;> omega

theorem roundHE_le_floor_add_one (x : ℚ) : roundHE x ≤ ⌊x⌋ + 1 := by
  rw [roundHE]
  split
  · omega
  · split
    · omega
    · split <;> omega

theorem le_roundHE {m : ℤ} {x : ℚ} (h : (m : ℚ) ≤ x) : m ≤ roundHE x :=
  le_trans (Int.le_floor.mpr h) (floor_le_roundHE x)

theorem roundHE_le {m : ℤ} {x : ℚ} (h : x ≤ (m : ℚ)) : roundHE x ≤ m := by
  have hfl : ⌊x⌋ ≤ m := by
    rw [← Int.floor_intCast (α := ℚ) m]
    exact Int.floor_le_floor h
  rcases lt_or_eq_of_le hfl with hlt | heq
  · exact le_trans (roundHE_le_floor_add_one x) (by omega)
  · have hx : x = (m : ℚ) := le_antisymm h (by rw [← heq]; exact Int.floor_le x)
    have : x - ⌊x⌋ < 1/2 := by rw [heq, hx]; norm_num
    rw [roundHE, if_pos this, heq]

theorem rnd4_nonneg {x : ℚ} (h : 0 ≤ x) : 0 ≤ rnd4 x := by
  have h1 : (0 : ℤ) ≤ roundHE (x * 10000) := le_roundHE (by push_cast; positivity)
  rw [rnd4]
  have h2 : (0 : ℚ) ≤ (roundHE (x * 10000) : ℚ) := by exact_mod_cast h1
  positivity

theorem rnd4_le_one {x : ℚ} (h : x ≤ 1) : rnd4 x ≤ 1 := by
  have h1 : roundHE (x * 10000) ≤ (10000 : ℤ) := roundHE_le (by push_cast; linarith)
  rw [rnd4, div_le_one (by norm_num)]
  exact_mod_cast h1

theorem one_le_rnd2 {x : ℚ} (h : 1 ≤ x) : 1 ≤ rnd2 x := by
  have h1 : (100 : ℤ) ≤ roundHE (x * 100) := le_roundHE (by push_cast; linarith)
  rw [rnd2, le_div_iff₀ (by norm_num)]
  exact_mod_cast h1

end Helpers

section Characterization

variable (env : Env) (s : ℕ → ℚ) (n : ℕ)

theorem mkRow_status (i : ℕ) :
    (mkRow env s n i).status = if isFailed env s n i then "failed" else "success" := rfl

theorem mkRow_failure_code (i : ℕ) :
    (mkRow env s n i).failure_code = failureCode env s n i := rfl

theorem mkRow_is_retryable (i : ℕ) :
    (mkRow env s n i).is_retryable = isRetryable env s n i := rfl

theorem mkRow_retry_recovered (i : ℕ) :
    (mkRow env s n i).retry_recovered = retryRecoveredAt env s n i := rfl

theorem mkRow_is_recoverable (i : ℕ) :
    (mkRow env s n i).is_recoverable = isRecoverable env s n i := rfl

theorem mkRow_amount_usd (i : ℕ) :
    (mkRow env s n i).amount_usd = amount env s n i := rfl

theorem mkRow_risk_score (i : ℕ) :
    (mkRow env s n i).pre_auth_risk_score = rnd4 (score env s n i) := rfl

theorem mkRow_offsetSeconds (i : ℕ) :
    (mkRow env s n i).offsetSeconds = offsetSec s n i := rfl

theorem rows_eq_map : rows env s n = (List.range n).map (mkRow env s n) := rfl

theorem mem_failedIdx {i : ℕ} :
    i ∈ failedIdx env s n ↔ i < n ∧ isFailed env s n i = true := by
  simp [failedIdx, List.mem_filter, List.mem_range]

theorem failedIdx_nodup : (failedIdx env s n).Nodup :=
  (List.nodup_range n).filter _

theorem nFailed_le : nFailed env s n ≤ n := by
  calc nFailed env s n ≤ (List.range n).length := List.length_filter_le _ _
  _ = n := List.length_range n

theorem assignedCodes_length : (assignedCodes env s n).length = nFailed env s n := by
  simp [assignedCodes]

theorem maskList_length : (maskList env s n).length = nFailed env s n := by
  simp [maskList]

theorem zip_fst_eq_failedIdx :
    ((failedIdx env s n).zip (assignedCodes env s n)).map Prod.fst = failedIdx env s n :=
  List.map_fst_zip _ _ (by rw [assignedCodes_length]; exact le_refl _)

theorem codesInit_length : (codesInit env s n).length = n := by
  simp [codesInit]

theorem failureCodes_length : (failureCodes env s n).length = n := by
  rw [failureCodes, scatter_length, codesInit_length]

theorem failureCode_of_not_failed {i : ℕ} (hi : i < n)
    (hf : isFailed env s n i = false) : failureCode env s n i = "success" := by
  rw [failureCode, failureCodes, scatter_getD_not_mem]
  · rw [codesInit, getD_map_range _ hi, hf]
    rfl
  · rw [zip_fst_eq_failedIdx]
    intro hmem
    rw [mem_failedIdx] at hmem
    rw [hf] at hmem
    exact Bool.false_ne_true hmem.2

theorem failureCode_eq_assigned {i j : ℕ} (hj : j < nFailed env s n)
    (hget : (failedIdx env s n).getD j 0 = i) :
    failureCode env s n i = assignedCode env s n j := by
  have hjlen : j < (failedIdx env s n).length := hj
  have hmemI : i ∈ failedIdx env s n := by
    rw [← hget]
    exact getD_mem_of_lt _ hjlen 0
  have hin : i < n := ((mem_failedIdx env s n).mp hmemI).1
  have hjz : j < ((failedIdx env s n).zip (assignedCodes env s n)).length := by
    rw [List.length_zip, assignedCodes_length]
    exact lt_min hj hj
  have hjA : j < (assignedCodes env s n).length := by
    rw [assignedCodes_length]
    exact hj
  have hzel : ((failedIdx env s n).zip (assignedCodes env s n))[j] = (i, assignedCode env s n j) := by
    rw [List.getElem_zip]
    rw [getD_of_lt _ hjlen] at hget
    rw [hget]
    have hA : (assignedCodes env s n)[j] = assignedCode env s n j := by
      simp [assignedCodes]
    rw [hA]
  have hmemz : (i, assignedCode env s n j) ∈ (failedIdx env s n).zip (assignedCodes env s n) := by
    rw [← hzel]
    exact List.getElem_mem hjz
  rw [failureCode, failureCodes]
  exact scatter_getD_mem _ _ (by rw [zip_fst_eq_failedIdx]; exact failedIdx_nodup env s n)
    hmemz (by rw [codesInit_length]; exact hin) _

theorem failureCode_of_failed {i : ℕ} (hi : i < n) (hf : isFailed env s n i = true) :
    ∃ j, ∃ _ : j < nFailed env s n, (failedIdx env s n).getD j 0 = i ∧
      failureCode env s n i = assignedCode env s n j := by
  have hmemI : i ∈ failedIdx env s n := (mem_failedIdx env s n).mpr ⟨hi, hf⟩
  obtain ⟨j, hj, hget⟩ := List.getElem_of_mem hmemI
  refine ⟨j, hj, ?_, ?_⟩
  · rw [getD_of_lt _ hj, hget]
  · exact failureCode_eq_assigned env s n hj (by rw [getD_of_lt _ hj, hget])

theorem retry_codes_spec :
    ∀ c ∈ RETRY_CODES, c ≠ "success" ∧ c ≠ "pending_code" ∧
      c ∈ FAILURE_CODES.map (fun e => e.name) ∧
      ((lookupCode c).map (fun e => e.retryable)).getD false = true := by decide

theorem nonretry_codes_spec :
    ∀ c ∈ NON_RETRY_CODES, c ≠ "success" ∧ c ≠ "pending_code" ∧
      c ∈ FAILURE_CODES.map (fun e => e.name) ∧
      ((lookupCode c).map (fun e => e.retryable)).getD false = false ∧
      c ∉ RETRY_CODES := by decide

theorem assignedCode_mem (j : ℕ) :
    (retryMask env s n j = true ∧ assignedCode env s n j ∈ RETRY_CODES) ∨
    (retryMask env s n j = false ∧ assignedCode env s n j ∈ NON_RETRY_CODES) := by
  rw [assignedCode]
  cases hm : retryMask env s n j with
  | true =>
    left
    refine ⟨rfl, ?_⟩
    rw [if_pos rfl]
    exact getD_mem_of_lt _ (uniformIdx_lt (by decide) _) _
  | false =>
    right
    refine ⟨rfl, ?_⟩
    rw [if_neg Bool.false_ne_true]
    exact getD_mem_of_lt _ (uniformIdx_lt (by decide) _) _

theorem failureCode_cases {i : ℕ} (hi : i < n) :
    (isFailed env s n i = false ∧ failureCode env s n i = "success") ∨
    (isFailed env s n i = true ∧
      (failureCode env s n i ∈ RETRY_CODES ∨ failureCode env s n i ∈ NON_RETRY_CODES)) := by
  cases hf : isFailed env s n i with
  | false => exact Or.inl ⟨rfl, failureCode_of_not_failed env s n hi hf⟩
  | true =>
    obtain ⟨j, hj, _, hcode⟩ := failureCode_of_failed env s n hi hf
    rcases assignedCode_mem env s n j with ⟨_, hmem⟩ | ⟨_, hmem⟩
    · exact Or.inr ⟨rfl, Or.inl (hcode ▸ hmem)⟩
    · exact Or.inr ⟨rfl, Or.inr (hcode ▸ hmem)⟩

theorem recUpdates_fst :
    (recUpdates env s n).map Prod.fst = retryFailedIdx env s n := by
  rw [recUpdates, List.map_map]
  have : (Prod.fst ∘ fun p : ℕ × ℕ =>
      (p.1, decide (s (recBase env s n + p.2) < recoveryRate (failureCode env s n p.1))))
      = Prod.fst := rfl
  rw [this]
  exact List.map_fst_zip _ _ (by rw [List.length_range])

theorem retryFailedIdx_sub {i : ℕ} (h : i ∈ retryFailedIdx env s n) :
    i ∈ failedIdx env s n := by
  simp only [retryFailedIdx, List.mem_map, List.mem_filter] at h
  obtain ⟨⟨a, b⟩, ⟨hz, _⟩, ha⟩ := h
  have := (List.of_mem_zip hz).1
  rw [← ha]
  exact this

theorem retryFailedIdx_length_le :
    (retryFailedIdx env s n).length ≤ nFailed env s n := by
  rw [retryFailedIdx, List.length_map]
  calc ((( failedIdx env s n).zip (maskList env s n)).filter (fun p => p.2)).length
      ≤ ((failedIdx env s n).zip (maskList env s n)).length := List.length_filter_le _ _
  _ ≤ nFailed env s n := by
      rw [List.length_zip, maskList_length]
      exact min_le_left _ _

theorem mem_retryFailedIdx {i : ℕ} (h : i ∈ retryFailedIdx env s n) :
    ∃ j, ∃ _ : j < nFailed env s n, (failedIdx env s n).getD j 0 = i ∧
      retryMask env s n j = true := by
  simp only [retryFailedIdx, List.mem_map, List.mem_filter] at h
  obtain ⟨⟨a, b⟩, ⟨hz, hb⟩, ha⟩ := h
  obtain ⟨j, hj, hzel⟩ := List.getElem_of_mem hz
  have hjF : j < nFailed env s n := by
    have := hj
    rw [List.length_zip, maskList_length] at this
    exact lt_of_lt_of_le this (min_le_left _ _)
  have hjl : j < (failedIdx env s n).length := hjF
  have hjm : j < (maskList env s n).length := by rw [maskList_length]; exact hjF
  rw [List.getElem_zip] at hzel
  rw [Prod.mk.injEq] at hzel
  refine ⟨j, hjF, ?_, ?_⟩
  · rw [getD_of_lt _ hjl, hzel.1]
    exact ha
  · have hmg : (maskList env s n)[j] = retryMask env s n j := by
      simp [maskList]
    rw [← hmg, hzel.2]
    exact hb

theorem retryRecovered_length : (retryRecovered env s n).length = n := by
  rw [retryRecovered, scatter_length, List.length_replicate]

theorem retryRecoveredAt_false_of_not_mem {i : ℕ}
    (h : i ∉ retryFailedIdx env s n) : retryRecoveredAt env s n i = false := by
  rw [retryRecoveredAt, retryRecovered, scatter_getD_not_mem]
  · rcases Nat.lt_or_ge i n with hlt | hge
    · rw [List.getD_eq_getElem?_getD, List.getElem?_replicate, if_pos hlt]
      rfl
    · rw [List.getD_eq_getElem?_getD, List.getElem?_replicate, if_neg (by omega)]
      rfl
  · rw [recUpdates_fst]
    exact h

theorem retryRecoveredAt_mem {i : ℕ} (h : retryRecoveredAt env s n i = true) :
    i ∈ retryFailedIdx env s n := by
  by_contra hc
  rw [retryRecoveredAt_false_of_not_mem env s n hc] at h
  exact Bool.false_ne_true h

theorem riskBaseF_some {i : ℕ} (h : riskMax env s n ≠ riskMin env s n) :
    riskBaseF env s n i = some (riskBase env s n i) := by
  rw [riskBaseF, fdiv, if_neg (sub_ne_zero.mpr h), riskBase]

theorem riskBaseF_none {i : ℕ} (h : riskMax env s n = riskMin env s n) :
    riskBaseF env s n i = none := by
  rw [riskBaseF, fdiv, if_pos (by rw [h, sub_self])]

theorem scoreF_some {i : ℕ} (h : riskMax env s n ≠ riskMin env s n) :
    scoreF env s n i = some (score env s n i) := by
  rw [scoreF, riskBaseF_some env s n h]
  rfl

theorem scoreF_none {i : ℕ} (h : riskMax env s n = riskMin env s n) :
    scoreF env s n i = none := by
  rw [scoreF, riskBaseF_none env s n h]
  rfl

theorem degenerate_single_batch :
    riskMax env s 1 = riskMin env s 1 := by
  simp [riskMax, riskMin, rawRiskList, List.range_succ, listMin, listMax]

theorem st3_nondegenerate : riskMax env0 st3 2 ≠ riskMin env0 st3 2 := by
  have hs : (decide ("E-commerce" = "SaaS/Subscription")) = false := by decide
  norm_num [riskMax, riskMin, rawRiskList, rawRisk, amountRisk, amount, mcName, mcIdx,
    geoName, geoIdx, pmName, pmIdx, failBaseOf, geoMultOf, pmMultOf, avgAmountOf,
    MERCHANT_CATEGORIES, GEOGRAPHIES, PAYMENT_METHODS, chooseIdxAux, clip, rnd2, roundHE,
    env0, st3, listMin, listMax, List.range_succ, List.find?, max_def, min_def, hs]

theorem isRetryable_of_mem_retryFailedIdx {i : ℕ}
    (h : i ∈ retryFailedIdx env s n) : isRetryable env s n i = true := by
  obtain ⟨j, hj, hget, hmask⟩ := mem_retryFailedIdx env s n h
  have hcode : failureCode env s n i = assignedCode env s n j :=
    failureCode_eq_assigned env s n hj hget
  have hretry : assignedCode env s n j ∈ RETRY_CODES := by
    rcases assignedCode_mem env s n j with ⟨_, hmem⟩ | ⟨hm, _⟩
    · exact hmem
    · rw [hmask] at hm
      exact absurd hm.symm Bool.false_ne_true
  obtain ⟨hns, _, _, hlook⟩ := retry_codes_spec _ hretry
  rw [isRetryable, hcode, if_pos hns]
  exact hcode ▸ hlook ▸ (by rw [hcode])

end Characterization

section Claims

/-- C1: for every generated row, `failure_code = "success"` iff
`status = "success"`, and a failed row always carries a non-`"success"`
failure code. -/
theorem c1_failure_code_iff_status (env : Env) (s : ℕ → ℚ) (n i : ℕ) (hi : i < n) :
    ((mkRow env s n i).failure_code = "success" ↔ (mkRow env s n i).status = "success") ∧
    ((mkRow env s n i).status = "failed" → (mkRow env s n i).failure_code ≠ "success") := by
  rw [mkRow_failure_code, mkRow_status]
  rcases failureCode_cases env s n hi with ⟨hf, hc⟩ | ⟨hf, hc⟩
  · rw [hf, hc]
    constructor
    · simp
    · intro h
      simp at h
  · have hne : failureCode env s n i ≠ "success" := by
      rcases hc with hc | hc
      · exact (retry_codes_spec _ hc).1
      · exact (nonretry_codes_spec _ hc).1
    rw [hf]
    constructor
    · constructor
      · intro h
        exact absurd h hne
      · intro h
        simp at h
    · intro _
      exact hne

theorem c1_witness :
    (0 : ℕ) < 1 ∧
    (((mkRow env0 st1 1 0).failure_code = "success" ↔ (mkRow env0 st1 1 0).status = "success") ∧
     ((mkRow env0 st1 1 0).status = "failed" → (mkRow env0 st1 1 0).failure_code ≠ "success")) :=
  ⟨by decide, c1_failure_code_iff_status env0 st1 1 0 (by decide)⟩

/-- C2: `is_retryable` is the fixed retryability flag looked up for the
row's `failure_code` in `FAILURE_CODES` (false on `"success"`), so it is
true exactly when the code lies in the retryable pool. -/
theorem c2_is_retryable_lookup (env : Env) (s : ℕ → ℚ) (n i : ℕ) (hi : i < n) :
    (mkRow env s n i).is_retryable
      = ((lookupCode (mkRow env s n i).failure_code).map (fun e => e.retryable)).getD false ∧
    ((mkRow env s n i).is_retryable = true ↔ (mkRow env s n i).failure_code ∈ RETRY_CODES) ∧
    ((mkRow env s n i).failure_code = "success" → (mkRow env s n i).is_retryable = false) := by
  rw [mkRow_is_retryable, mkRow_failure_code]
  rcases failureCode_cases env s n hi with ⟨_, hc⟩ | ⟨_, hc⟩
  · simp only [isRetryable, hc]
    refine ⟨by decide, by decide, fun _ => by decide⟩
  · have hval : ∀ b, ((lookupCode (failureCode env s n i)).map (fun e => e.retryable)).getD false = b →
        isRetryable env s n i = b := by
      intro b hb
      have hns : failureCode env s n i ≠ "success" := by
        rcases hc with hc | hc
        · exact (retry_codes_spec _ hc).1
        · exact (nonretry_codes_spec _ hc).1
      rw [isRetryable, if_pos hns]
      exact hb
    rcases hc with hc | hc
    · obtain ⟨hns, _, _, hlook⟩ := retry_codes_spec _ hc
      refine ⟨(hval _ rfl).trans rfl, ?_, ?_⟩
      · rw [hval true hlook]
        exact iff_of_true rfl hc
      · intro h
        exact absurd h hns
    · obtain ⟨hns, _, _, hlook, hnin⟩ := nonretry_codes_spec _ hc
      refine ⟨(hval _ rfl).trans rfl, ?_, ?_⟩
      · rw [hval false hlook]
        exact iff_of_false Bool.false_ne_true hnin
      · intro h
        exact absurd h hns

theorem c2_witness :
    (0 : ℕ) < 1 ∧
    ((mkRow env0 st1 1 0).is_retryable
      = ((lookupCode (mkRow env0 st1 1 0).failure_code).map (fun e => e.retryable)).getD false ∧
    ((mkRow env0 st1 1 0).is_retryable = true ↔ (mkRow env0 st1 1 0).failure_code ∈ RETRY_CODES) ∧
    ((mkRow env0 st1 1 0).failure_code = "success" → (mkRow env0 st1 1 0).is_retryable = false)) :=
  ⟨by decide, c2_is_retryable_lookup env0 st1 1 0 (by decide)⟩

/-- C3: `retry_recovered = true` forces a retryable, failed row, and
`is_recoverable = true` forces a retryable, unrecovered, failed row. -/
theorem c3_recovery_flags (env : Env) (s : ℕ → ℚ) (n i : ℕ) (hi : i < n) :
    ((mkRow env s n i).retry_recovered = true →
      (mkRow env s n i).is_retryable = true ∧ (mkRow env s n i).status = "failed") ∧
    ((mkRow env s n i).is_recoverable = true →
      (mkRow env s n i).is_retryable = true ∧ (mkRow env s n i).retry_recovered = false ∧
      (mkRow env s n i).status = "failed") := by
  rw [mkRow_retry_recovered, mkRow_is_retryable, mkRow_is_recoverable, mkRow_status]
  constructor
  · intro hr
    have hmem := retryRecoveredAt_mem env s n hr
    have hret := isRetryable_of_mem_retryFailedIdx env s n hmem
    have hfail : isFailed env s n i = true :=
      ((mem_failedIdx env s n).mp (retryFailedIdx_sub env s n hmem)).2
    refine ⟨hret, ?_⟩
    rw [hfail]
    rfl
  · intro hr
    rw [isRecoverable] at hr
    simp only [Bool.and_eq_true, Bool.not_eq_true'] at hr
    obtain ⟨⟨hret, hrec⟩, hfail⟩ := hr
    refine ⟨hret, hrec, ?_⟩
    rw [hfail]
    rfl

theorem c3_witness :
    (0 : ℕ) < 1 ∧
    (((mkRow env0 st1 1 0).retry_recovered = true →
      (mkRow env0 st1 1 0).is_retryable = true ∧ (mkRow env0 st1 1 0).status = "failed") ∧
    ((mkRow env0 st1 1 0).is_recoverable = true →
      (mkRow env0 st1 1 0).is_retryable = true ∧ (mkRow env0 st1 1 0).retry_recovered = false ∧
      (mkRow env0 st1 1 0).status = "failed")) :=
  ⟨by decide, c3_recovery_flags env0 st1 1 0 (by decide)⟩

/-- C4: the probability fed to the Bernoulli status draw is exactly
`clip(sigmoid((score - 0.45) / 0.025) * 0.40 + 0.03, 0.02, 0.90)` of the
(unrounded) `pre_auth_risk_score`, with `sigmoid(x) = 1 / (1 + exp(-x))`. -/
theorem c4_fail_prob_formula (env : Env) (s : ℕ → ℚ) (n i : ℕ) :
    failProb env s n i = specFailProb env.exp (score env s n i) ∧
    isFailed env s n i = decide (s (6*n + i) < specFailProb env.exp (score env s n i)) :=
  ⟨rfl, rfl⟩

/-- C5 (counterexample to the claim as stated): on a degenerate batch — all
raw risks equal, as in any single-row batch — the normalisation step's
`0.0 / 0.0` is NaN under IEEE semantics, and `np.clip` and `np.round`
propagate it, so the written `pre_auth_risk_score` is NaN, not a value in
`[0, 1]`. -/
theorem c5_nan_counterexample :
    writtenScoreF env0 st1 1 0 = none ∧
    ¬ ∃ x : ℚ, writtenScoreF env0 st1 1 0 = some x ∧ 0 ≤ x ∧ x ≤ 1 := by
  have h1 : writtenScoreF env0 st1 1 0 = none := by
    rw [writtenScoreF, scoreF_none env0 st1 1 (degenerate_single_batch env0 st1)]
    rfl
  refine ⟨h1, ?_⟩
  rw [h1]
  rintro ⟨x, hx, _⟩
  exact Option.noConfusion hx

/-- C5 (amended): on every non-degenerate batch — one whose raw risks are
not all equal, so the `max - min` denominator of source line 137 is nonzero
— the IEEE value of the written score is exactly the row's rational
`pre_auth_risk_score`, and it lies in `[0, 1]`, as does the unrounded
clipped score.  (On a degenerate batch the written score is NaN instead;
see the counterexample above and C9.) -/
theorem c5_risk_score_unit_interval_amended (env : Env) (s : ℕ → ℚ) (n i : ℕ)
    (hi : i < n) (hnd : riskMax env s n ≠ riskMin env s n) :
    writtenScoreF env s n i = some ((mkRow env s n i).pre_auth_risk_score) ∧
    0 ≤ (mkRow env s n i).pre_auth_risk_score ∧ (mkRow env s n i).pre_auth_risk_score ≤ 1 ∧
    0 ≤ score env s n i ∧ score env s n i ≤ 1 := by
  have h0 : 0 ≤ score env s n i := by
    rw [score]
    exact lo_le_clip _ (by norm_num)
  have h1 : score env s n i ≤ 1 := by
    rw [score]
    exact clip_le_hi _ _ _
  rw [mkRow_risk_score]
  refine ⟨?_, rnd4_nonneg h0, rnd4_le_one h1, h0, h1⟩
  rw [writtenScoreF, scoreF_some env s n hnd]
  rfl

theorem c5_amended_witness :
    ((0 : ℕ) < 2 ∧ riskMax env0 st3 2 ≠ riskMin env0 st3 2) ∧
    (writtenScoreF env0 st3 2 0 = some ((mkRow env0 st3 2 0).pre_auth_risk_score) ∧
     0 ≤ (mkRow env0 st3 2 0).pre_auth_risk_score ∧ (mkRow env0 st3 2 0).pre_auth_risk_score ≤ 1 ∧
     0 ≤ score env0 st3 2 0 ∧ score env0 st3 2 0 ≤ 1) :=
  ⟨⟨by decide, st3_nondegenerate⟩,
   c5_risk_score_unit_interval_amended env0 st3 2 0 (by decide) st3_nondegenerate⟩

/-- C6: `amount_usd` is the category-anchored log-normal draw floored at
`1.0` and rounded to 2 decimal places, hence at least `1` and positive. -/
theorem c6_amount_positive (env : Env) (s : ℕ → ℚ) (n i : ℕ) (hi : i < n) :
    (mkRow env s n i).amount_usd
      = rnd2 (max 1 (env.lognormal (avgAmountOf (mcName s i)) (s (3*n + i)))) ∧
    1 ≤ (mkRow env s n i).amount_usd ∧ 0 < (mkRow env s n i).amount_usd := by
  rw [mkRow_amount_usd, amount]
  refine ⟨rfl, one_le_rnd2 (le_max_left _ _), ?_⟩
  exact lt_of_lt_of_le one_pos (one_le_rnd2 (le_max_left _ _))

theorem c6_witness :
    (0 : ℕ) < 1 ∧
    ((mkRow env0 st1 1 0).amount_usd
      = rnd2 (max 1 (env0.lognormal (avgAmountOf (mcName st1 0)) (st1 (3*1 + 0)))) ∧
    1 ≤ (mkRow env0 st1 1 0).amount_usd ∧ 0 < (mkRow env0 st1 1 0).amount_usd) :=
  ⟨by decide, c6_amount_positive env0 st1 1 0 (by decide)⟩

/-- C7 (amended): timestamps are the window start plus a uniform integer
second offset drawn from the half-open range `[0, total_seconds)`, so every
sampled instant falls strictly before 2024-12-31 00:00:00; the end date
itself is never reached. -/
theorem c7_window_amended (env : Env) (s : ℕ → ℚ) (n i : ℕ) :
    (mkRow env s n i).offsetSeconds = offsetSec s n i ∧
    offsetSec s n i < totalSeconds ∧
    startDay + (dayIndex (offsetSec s n i) : ℤ) < daysFromCivil 2024 12 31 ∧
    (∃ u : ℚ, uniformIdx totalSeconds u = totalSeconds - 1) := by
  have hlt : offsetSec s n i < totalSeconds := by
    rw [offsetSec]
    exact uniformIdx_lt (by decide) _
  refine ⟨rfl, hlt, ?_, ?_⟩
  · have hts : totalSeconds = 549 * 86400 := by decide
    have hday : dayIndex (offsetSec s n i) < 549 := by
      rw [dayIndex, Nat.div_lt_iff_lt_mul (by norm_num : (0:ℕ) < 86400)]
      omega
    have hdiff : daysFromCivil 2024 12 31 - startDay = 549 := by decide
    omega
  · refine ⟨((totalSeconds - 1 : ℕ) : ℚ) / (totalSeconds : ℚ), ?_⟩
    have hT : (totalSeconds : ℚ) ≠ 0 := Nat.cast_ne_zero.mpr (by decide)
    rw [uniformIdx, div_mul_cancel₀ _ hT, Int.floor_natCast,
      max_eq_right (Int.natCast_nonneg _), Int.toNat_natCast, min_self]

/-- C7 (counterexample to the claim as stated): no generated instant ever
lies on the end date 2024-12-31 — the `rng.integers` high end is exclusive,
so the last reachable instant is 2024-12-30 23:59:59. -/
theorem c7_no_end_date_instant :
    ¬ ∃ (s : ℕ → ℚ) (n i : ℕ),
      startDay + (dayIndex (offsetSec s n i) : ℤ) = daysFromCivil 2024 12 31 := by
  rintro ⟨s, n, i, h⟩
  have hlt : offsetSec s n i < totalSeconds := by
    rw [offsetSec]
    exact uniformIdx_lt (by decide) _
  have hts : totalSeconds = 549 * 86400 := by decide
  have hday : dayIndex (offsetSec s n i) < 549 := by
    rw [dayIndex, Nat.div_lt_iff_lt_mul (by norm_num : (0:ℕ) < 86400)]
    omega
  have hdiff : daysFromCivil 2024 12 31 - startDay = 549 := by decide
  omega

/-- C9: on a degenerate batch whose raw risks are all equal (any single-row
batch is such a case), the min-max normalisation divides zero by zero; under
IEEE semantics this yields NaN, which `np.clip` propagates and which makes
every status comparison false — the run completes instead of aborting. -/
theorem c9_degenerate_normalization_nan :
    (∀ (env : Env) (s : ℕ → ℚ), normalizeScores (rawRiskList env s 1) = [none]) ∧
    normalizeScores [1/10, 1/10] = [none, none] ∧
    (normalizeScores [1/10, 1/10]).map (fun p => fclipOpt p 0 1) = [none, none] ∧
    (normalizeScores [1/10, 1/10]).map (fltOpt (1/2)) = [false, false] := by
  refine ⟨?_, ?_, ?_, ?_⟩
  · intro env s
    simp [normalizeScores, rawRiskList, List.range_succ, listMin, listMax, fdiv, sub_self,
      Function.comp]
  · norm_num [normalizeScores, listMin, listMax, fdiv]
  · norm_num [normalizeScores, listMin, listMax, fdiv, fclipOpt]
  · norm_num [normalizeScores, listMin, listMax, fdiv, fltOpt]

/-- C10: every `failure_code` in the final table is `"success"` or one of
the 12 keys of `FAILURE_CODES`; the `"pending_code"` placeholder written
before code assignment never survives into a row. -/
theorem c10_failure_code_pool (env : Env) (s : ℕ → ℚ) (n i : ℕ) (hi : i < n) :
    ((mkRow env s n i).failure_code = "success" ∨
      (mkRow env s n i).failure_code ∈ FAILURE_CODES.map (fun e => e.name)) ∧
    (mkRow env s n i).failure_code ≠ "pending_code" := by
  rw [mkRow_failure_code]
  rcases failureCode_cases env s n hi with ⟨_, hc⟩ | ⟨_, hc⟩
  · rw [hc]
    exact ⟨Or.inl rfl, by decide⟩
  · rcases hc with hc | hc
    · obtain ⟨_, hnp, hkeys, _⟩ := retry_codes_spec _ hc
      exact ⟨Or.inr hkeys, hnp⟩
    · obtain ⟨_, hnp, hkeys, _, _⟩ := nonretry_codes_spec _ hc
      exact ⟨Or.inr hkeys, hnp⟩

theorem c10_witness :
    (0 : ℕ) < 1 ∧
    (((mkRow env0 st1 1 0).failure_code = "success" ∨
      (mkRow env0 st1 1 0).failure_code ∈ FAILURE_CODES.map (fun e => e.name)) ∧
    (mkRow env0 st1 1 0).failure_code ≠ "pending_code") :=
  ⟨by decide, c10_failure_code_pool env0 st1 1 0 (by decide)⟩

/-- C8: the pipeline is deterministic in the generator stream and the row
count — it consumes the stream sequentially, and two runs whose streams
agree on every position the first run consumes produce identical tables,
identical output file contents, and consume identically many draws.  With
the stream fixed by the seed, two runs of the program coincide byte for
byte. -/
theorem c8_deterministic_replay (env : Env) (s t : ℕ → ℚ) (n : ℕ)
    (h : ∀ i, i < totalDraws env s n → s i = t i) :
    rows env s n = rows env t n ∧ csv env s n = csv env t n ∧
    totalDraws env s n = totalDraws env t n := by
  have hb7 : 7*n ≤ totalDraws env s n := by
    simp only [totalDraws, popBase, recBase]
    omega
  have hbF : ∀ j, j < nFailed env s n → 7*n + j < totalDraws env s n := by
    intro j hj
    simp only [totalDraws, popBase, recBase]
    omega
  have hbF2 : ∀ j, j < nFailed env s n →
      7*n + nFailed env s n + j < totalDraws env s n := by
    intro j hj
    simp only [totalDraws, popBase, recBase]
    omega
  have hbF3 : ∀ j, j < nFailed env s n →
      7*n + 2 * nFailed env s n + j < totalDraws env s n := by
    intro j hj
    simp only [totalDraws, popBase, recBase]
    omega
  have hbR : ∀ j, j < (retryFailedIdx env s n).length →
      recBase env s n + j < totalDraws env s n := by
    intro j hj
    simp only [totalDraws, popBase]
    omega
  have hbP : ∀ j, j < nMerchants → popBase env s n + j < totalDraws env s n := by
    intro j hj
    simp only [totalDraws]
    omega
  have hbM : ∀ i, i < n → popBase env s n + nMerchants + i < totalDraws env s n := by
    intro i hi
    simp only [totalDraws]
    omega
  have e_mcN : ∀ i, i < n → mcName s i = mcName t i := by
    intro i hi
    simp only [mcName, mcIdx]
    rw [h i (by omega)]
  have e_geoN : ∀ i, i < n → geoName s n i = geoName t n i := by
    intro i hi
    simp only [geoName, geoIdx]
    rw [h (n + i) (by omega)]
  have e_pmN : ∀ i, i < n → pmName s n i = pmName t n i := by
    intro i hi
    simp only [pmName, pmIdx]
    rw [h (2*n + i) (by omega)]
  have e_amt : ∀ i, i < n → amount env s n i = amount env t n i := by
    intro i hi
    simp only [amount]
    rw [h (3*n + i) (by omega), e_mcN i hi]
  have e_off : ∀ i, i < n → offsetSec s n i = offsetSec t n i := by
    intro i hi
    simp only [offsetSec]
    rw [h (4*n + i) (by omega)]
  have e_noise : ∀ i, i < n → noise env s n i = noise env t n i := by
    intro i hi
    simp only [noise]
    rw [h (5*n + i) (by omega)]
  have e_raw : ∀ i, i < n → rawRisk env s n i = rawRisk env t n i := by
    intro i hi
    simp only [rawRisk, amountRisk]
    rw [e_mcN i hi, e_geoN i hi, e_pmN i hi, e_amt i hi]
  have e_rawL : rawRiskList env s n = rawRiskList env t n := by
    simp only [rawRiskList]
    exact List.map_congr_left (fun i hi => e_raw i (List.mem_range.mp hi))
  have e_min : riskMin env s n = riskMin env t n := by
    simp only [riskMin]
    rw [e_rawL]
  have e_max : riskMax env s n = riskMax env t n := by
    simp only [riskMax]
    rw [e_rawL]
  have e_sc : ∀ i, i < n → score env s n i = score env t n i := by
    intro i hi
    simp only [score, riskBase]
    rw [e_raw i hi, e_min, e_max, e_noise i hi]
  have e_fp : ∀ i, i < n → failProb env s n i = failProb env t n i := by
    intro i hi
    simp only [failProb]
    rw [e_sc i hi]
  have e_isF : ∀ i, i < n → isFailed env s n i = isFailed env t n i := by
    intro i hi
    simp only [isFailed]
    rw [h (6*n + i) (by omega), e_fp i hi]
  have e_fidx : failedIdx env s n = failedIdx env t n := by
    simp only [failedIdx]
    exact List.filter_congr (fun i hi => e_isF i (List.mem_range.mp hi))
  have e_nF : nFailed env s n = nFailed env t n := by
    simp only [nFailed]
    rw [e_fidx]
  have e_mask : ∀ j, j < nFailed env s n → retryMask env s n j = retryMask env t n j := by
    intro j hj
    simp only [retryMask]
    rw [h (7*n + j) (hbF j hj)]
  have e_maskL : maskList env s n = maskList env t n := by
    simp only [maskList]
    rw [← e_nF]
    exact List.map_congr_left (fun j hj => e_mask j (List.mem_range.mp hj))
  have e_ra : ∀ j, j < nFailed env s n → retryAssign env s n j = retryAssign env t n j := by
    intro j hj
    simp only [retryAssign]
    rw [← e_nF, h (7*n + nFailed env s n + j) (hbF2 j hj)]
  have e_nra : ∀ j, j < nFailed env s n →
      nonretryAssign env s n j = nonretryAssign env t n j := by
    intro j hj
    simp only [nonretryAssign]
    rw [← e_nF, h (7*n + 2 * nFailed env s n + j) (hbF3 j hj)]
  have e_ac : ∀ j, j < nFailed env s n →
      assignedCode env s n j = assignedCode env t n j := by
    intro j hj
    simp only [assignedCode]
    rw [e_mask j hj, e_ra j hj, e_nra j hj]
  have e_acL : assignedCodes env s n = assignedCodes env t n := by
    simp only [assignedCodes]
    rw [← e_nF]
    exact List.map_congr_left (fun j hj => e_ac j (List.mem_range.mp hj))
  have e_ci : codesInit env s n = codesInit env t n := by
    simp only [codesInit]
    exact List.map_congr_left (fun i hi => by rw [e_isF i (List.mem_range.mp hi)])
  have e_fcs : failureCodes env s n = failureCodes env t n := by
    simp only [failureCodes]
    rw [e_ci, e_fidx, e_acL]
  have e_fcode : ∀ i, failureCode env s n i = failureCode env t n i := by
    intro i
    simp only [failureCode]
    rw [e_fcs]
  have e_isRet : ∀ i, isRetryable env s n i = isRetryable env t n i := by
    intro i
    simp only [isRetryable]
    rw [e_fcode i]
  have e_rfi : retryFailedIdx env s n = retryFailedIdx env t n := by
    simp only [retryFailedIdx]
    rw [e_fidx, e_maskL]
  have e_recB : recBase env s n = recBase env t n := by
    simp only [recBase]
    rw [e_nF]
  have e_recU : recUpdates env s n = recUpdates env t n := by
    simp only [recUpdates]
    rw [← e_rfi]
    refine List.map_congr_left ?_
    rintro ⟨a, j⟩ hp
    have hj : j < (retryFailedIdx env s n).length :=
      List.mem_range.mp (List.of_mem_zip hp).2
    simp only
    rw [h (recBase env s n + j) (hbR j hj), e_recB, e_fcode a]
  have e_rr : retryRecovered env s n = retryRecovered env t n := by
    simp only [retryRecovered]
    rw [e_recU]
  have e_rrAt : ∀ i, retryRecoveredAt env s n i = retryRecoveredAt env t n i := by
    intro i
    simp only [retryRecoveredAt]
    rw [e_rr]
  have e_isRec : ∀ i, i < n → isRecoverable env s n i = isRecoverable env t n i := by
    intro i hi
    simp only [isRecoverable]
    rw [e_isRet i, e_rrAt i, e_isF i hi]
  have e_popB : popBase env s n = popBase env t n := by
    simp only [popBase]
    rw [e_recB, e_rfi]
  have e_popR : popRaw env s n = popRaw env t n := by
    simp only [popRaw]
    rw [← e_popB]
    exact List.map_congr_left
      (fun j hj => by rw [h (popBase env s n + j) (hbP j (List.mem_range.mp hj))])
  have e_popS : popSum env s n = popSum env t n := by
    simp only [popSum]
    rw [e_popR]
  have e_popN : popNorm env s n = popNorm env t n := by
    simp only [popNorm]
    rw [e_popR, e_popS]
  have e_mid : ∀ i, i < n → merchantIdx env s n i = merchantIdx env t n i := by
    intro i hi
    simp only [merchantIdx]
    rw [e_popN, h (popBase env s n + nMerchants + i) (hbM i hi), e_popB]
  have e_mId : ∀ i, i < n → merchantId env s n i = merchantId env t n i := by
    intro i hi
    simp only [merchantId]
    rw [e_mid i hi]
  have e_row : ∀ i, i < n → mkRow env s n i = mkRow env t n i := by
    intro i hi
    simp only [mkRow]
    rw [e_off i hi, e_mId i hi, e_mcN i hi, e_geoN i hi, e_pmN i hi, e_amt i hi,
      e_sc i hi, e_isF i hi, e_fcode i, e_isRet i, e_rrAt i, e_isRec i hi]
  have e_rows : rows env s n = rows env t n := by
    simp only [rows]
    exact List.map_congr_left (fun i hi => e_row i (List.mem_range.mp hi))
  refine ⟨e_rows, ?_, ?_⟩
  · rw [csv, csv, e_rows]
  · simp only [totalDraws]
    rw [e_popB]

theorem c8_witness :
    rows env0 st1 2 = rows env0 st2 2 ∧ csv env0 st1 2 = csv env0 st2 2 ∧
    totalDraws env0 st1 2 = totalDraws env0 st2 2 := by
  refine c8_deterministic_replay env0 st1 st2 2 ?_
  intro i hi
  have hF : nFailed env0 st1 2 ≤ 2 := nFailed_le env0 st1 2
  have hR : (retryFailedIdx env0 st1 2).length ≤ nFailed env0 st1 2 :=
    retryFailedIdx_length_le env0 st1 2
  have htot : totalDraws env0 st1 2
      = 7*2 + 3 * nFailed env0 st1 2 + (retryFailedIdx env0 st1 2).length + 5000 + 2 := by
    simp only [totalDraws, popBase, recBase, nMerchants]
  have hlt : i < 100000 := by omega
  simp only [st2]
  rw [if_pos hlt]

end Claims

end PaymentGen
